import Mathlib

/-!
Verification of the periodic-task / CAB concurrency substrate of the
super-surface-player repository (`src/api/ptask.c`, `inc/api/ptask.h`,
`src/api/time.c`).

The C code is shallowly embedded: the static globals of `ptask.c` become an
explicit state record (`PtaskGlobals`), C `int` becomes `Int`, the fixed C
arrays (`_used_ids[PTASK_MAX]`, `busy[PTASK_CAB_MAX_SIZE]`, ...) become lists
of the same length, and every library function becomes a pure state-passing
function.  Results of external pthread calls (`pthread_join`,
`pthread_create`, the `pthread_attr_*` family) are passed in as explicit
error-code parameters, and the current clock value is passed in as an explicit
`Timespec` argument, since those are the only environment inputs the functions
consume.

Version note: `inc/api/ptask.h` declares the timestamped CAB interface (the
`timestamp : struct timespec` field of `struct __PTASK_CAB`, documented as
"time at which the most recent buffer has been inserted", and a
`ptask_cab_getmes` that takes a `struct timespec *timestamp` out-argument),
while the `src/api/ptask.c` present in the sources implements the older,
untimestamped signatures.  The implementation matching the header is not in
the sources, so the timestamp behaviour of `ptask_cab_putmes` /
`ptask_cab_getmes` is modelled from the spec, as flagged at those definitions;
everything else is translated directly from `src/api/ptask.c`.
-/

--------------------------------------------------------------------------
-- Constants (errno.h / sched.h values on Linux, and the ptask.h limits)
--------------------------------------------------------------------------

def EAGAIN : Int := 11
def EINVAL : Int := 22

def SCHED_OTHER : Int := 0
def SCHED_FIFO : Int := 1
def SCHED_RR : Int := 2

/-- Maximum number of tasks that can be allocated at any time (`PTASK_MAX`). -/
def PTASK_MAX : Nat := 50

/-- Maximum number of cab structures per process (`PTASK_CAB_MAX`). -/
def PTASK_CAB_MAX : Int := 50

/-- Maximum number of buffers within a cab (`PTASK_CAB_MAX_SIZE`). -/
def PTASK_CAB_MAX_SIZE : Nat := 32

--------------------------------------------------------------------------
-- struct timespec and the helpers of src/api/time.c
--------------------------------------------------------------------------

/-- Embedding of `struct timespec`. -/
structure Timespec where
  tv_sec : Int
  tv_nsec : Int
  deriving DecidableEq, Repr

/-- Embedding of `time_add_ms` from `src/api/time.c`.  C integer division and
remainder truncate toward zero, hence `Int.tdiv` / `Int.tmod`. -/
def time_add_ms (t : Timespec) (ms : Int) : Timespec :=
  let sec := t.tv_sec + ms.tdiv 1000
  let nsec := t.tv_nsec + ms.tmod 1000 * 1000000
  if nsec > 1000000000 then
    { tv_sec := sec + 1, tv_nsec := nsec - 1000000000 }
  else
    { tv_sec := sec, tv_nsec := nsec }

/-- Embedding of `time_cmp` from `src/api/time.c`. -/
def time_cmp (t1 t2 : Timespec) : Int :=
  if t1.tv_sec > t2.tv_sec then 1
  else if t1.tv_sec < t2.tv_sec then -1
  else if t1.tv_nsec > t2.tv_nsec then 1
  else if t1.tv_nsec < t2.tv_nsec then -1
  else 0

/-- Total value of a timespec in nanoseconds; used to state timing claims. -/
def timespecNs (t : Timespec) : Int :=
  t.tv_sec * 1000000000 + t.tv_nsec

--------------------------------------------------------------------------
-- Cyclic asynchronous buffers (struct __PTASK_CAB and its operations)
--------------------------------------------------------------------------

/-- Embedding of `struct __PTASK_CAB` (`inc/api/ptask.h`).  The `buffers`
array of `void *` pointers is modelled by the abstract contents of the
memory each slot points to (one `Int` per buffer); `_mux` is not modelled
because every operation holds it for its whole body, so each operation is one
atomic state transformation.  All arrays have their declared C length
`PTASK_CAB_MAX_SIZE = 32`. -/
structure PtaskCab where
  id : Int
  num_buffers : Nat
  size_buffers : Int
  buffers : List Int
  busy : List Int
  last_index : Int
  timestamp : Timespec
  deriving DecidableEq, Repr

/-- Embedding of `ptask_cab_init`.  The process-wide `_next_cab_id` counter is
passed explicitly.  `_ptask_new_cab` zero-initializes the whole struct, so the
buffer slots beyond `n` hold the null reference (modelled by `0`) and every
`busy` count starts at `0`. -/
def ptask_cab_init (next_cab_id : Int) (n : Nat) (size : Int)
    (bufs : List Int) : Int × Option PtaskCab :=
  if n > PTASK_CAB_MAX_SIZE then (EINVAL, none)
  else if ¬ (next_cab_id < PTASK_CAB_MAX) then (EAGAIN, none)
  else
    (0, some
      { id := next_cab_id
        num_buffers := n
        size_buffers := size
        buffers := (List.range PTASK_CAB_MAX_SIZE).map
          (fun i => if i < n then bufs.getD i 0 else 0)
        busy := List.replicate PTASK_CAB_MAX_SIZE 0
        last_index := -1
        timestamp := { tv_sec := 0, tv_nsec := 0 } })

/-- Embedding of `ptask_cab_reset`: under the lock, `last_index = -1`. -/
def ptask_cab_reset (cab : PtaskCab) : Int × PtaskCab :=
  (0, { cab with last_index := -1 })

/-- The unbounded scan loop of `ptask_cab_reserve`:
`while (busy[i] || i == last_index) ++i;`.  In C the loop runs with no bound;
reading past the end of the 32-entry `busy` array is undefined behaviour,
modelled by `none`.  The extra fuel argument (instantiated with
`busy.length`, the number of array entries left to visit) only makes the
recursion structural; it never cuts a scan short, because once `i` reaches
`busy.length` the result is `none` with any remaining fuel. -/
def _cab_scan (busy : List Int) (last : Int) : Nat → Nat → Option Nat
  | 0, _ => none
  | fuel + 1, i =>
      if h : i < busy.length then
        if busy.get ⟨i, h⟩ ≠ 0 ∨ (i : Int) = last then
          _cab_scan busy last fuel (i + 1)
        else some i
      else none

/-- Embedding of `ptask_cab_reserve`.  On success returns the updated cab, the
reserved buffer's reference and its index (`*b_id`); the C function itself
always returns `0` once the scan stops inside the array. -/
def ptask_cab_reserve (cab : PtaskCab) : Option (PtaskCab × Int × Nat) :=
  match _cab_scan cab.busy cab.last_index cab.busy.length 0 with
  | none => none
  | some i =>
      some ({ cab with busy := cab.busy.set i (cab.busy.getD i 0 + 1) },
            cab.buffers.getD i 0, i)

/-- Embedding of `ptask_cab_putmes`.
Modelled from the spec: the assignment `timestamp := now` on the success
path.  `inc/api/ptask.h` documents the `timestamp` field of the CAB as the
"time at which the most recent buffer has been inserted", but the
`src/api/ptask.c` in the sources implements the older untimestamped variant
and the implementation matching the header is missing; the stamping follows
the spec sentence "on success sets busy[token] = 0, last_index = token,
stamps last_timestamp = now".  Everything else is the `ptask_cab_putmes` of
`src/api/ptask.c` verbatim. -/
def ptask_cab_putmes (cab : PtaskCab) (b_id : Nat) (now : Timespec) :
    Int × PtaskCab :=
  if cab.busy.getD b_id 0 ≠ 1 ∨ cab.last_index = (b_id : Int) then (EINVAL, cab)
  else
    (0, { cab with busy := cab.busy.set b_id 0
                   last_index := (b_id : Int)
                   timestamp := now })

/-- Embedding of `ptask_cab_getmes`.
Modelled from the spec: the third result component returns the stored
`timestamp` alongside the buffer, following the header declaration
`ptask_cab_getmes(ptask_cab_t*, const void* buffer[], ptask_cab_id_t*,
struct timespec *timestamp)` whose matching implementation is missing from
the sources.  The error test, the token assignment `*b_id = last_index` and
the `++busy[*b_id]` are the `ptask_cab_getmes` of `src/api/ptask.c`
verbatim. -/
def ptask_cab_getmes (cab : PtaskCab) :
    Int × PtaskCab × Option (Nat × Int × Timespec) :=
  if cab.last_index < 0 then (EAGAIN, cab, none)
  else
    let b := cab.last_index.toNat
    (0, { cab with busy := cab.busy.set b (cab.busy.getD b 0 + 1) },
     some (b, cab.buffers.getD b 0, cab.timestamp))

/-- Embedding of `ptask_cab_unget`. -/
def ptask_cab_unget (cab : PtaskCab) (b_id : Nat) : Int × PtaskCab :=
  if cab.busy.getD b_id 0 < 1 then (EINVAL, cab)
  else (0, { cab with busy := cab.busy.set b_id (cab.busy.getD b_id 0 - 1) })

/-- Well-formedness of an initialized cab: the C arrays have their declared
length, the buffer count respects `PTASK_CAB_MAX_SIZE`, `last_index` is `-1`
or a valid buffer index, and reference counts are non-negative. -/
def CabWF (cab : PtaskCab) : Prop :=
  cab.busy.length = PTASK_CAB_MAX_SIZE ∧
  cab.buffers.length = PTASK_CAB_MAX_SIZE ∧
  cab.num_buffers ≤ PTASK_CAB_MAX_SIZE ∧
  (cab.last_index = -1 ∨
    (0 ≤ cab.last_index ∧ cab.last_index < (cab.num_buffers : Int))) ∧
  (∀ b ∈ cab.busy, 0 ≤ b)

instance (cab : PtaskCab) : Decidable (CabWF cab) := by
  unfold CabWF
  exact inferInstance

/-- Number of buffers of the cab currently held by readers (`busy > 0`),
among the `num_buffers` buffers actually in use. -/
def cabBusyCount (cab : PtaskCab) : Nat :=
  (List.range cab.num_buffers).countP (fun i => decide (0 < cab.busy.getD i 0))

--------------------------------------------------------------------------
-- Periodic tasks: states, descriptors and the registry globals
--------------------------------------------------------------------------

/-- Embedding of `ptask_state_t` (`enum __PTASK_ENUM`). -/
inductive PtaskState where
  | PS_ERROR
  | PS_FREE
  | PS_NEW
  | PS_JOINABLE
  deriving DecidableEq, Repr

/-- Embedding of `ptask_t` (`struct __PTASK_STRUCT`).  The pthread handle
`_tid`, the native attribute block `_attr` and the raw `args` bytes are
opaque to every property considered here and are omitted.  The C field `at`
is named `at_` because `at` is reserved in Lean. -/
structure Ptask where
  id : Int
  wcet : Int
  period : Int
  deadline : Int
  priority : Int
  dmiss : Int
  at_ : Timespec
  dl : Timespec
  _state : PtaskState
  deriving DecidableEq, Repr

/-- The zero-initialized `_ptask_new_task` constant (`PS_FREE = 0`). -/
def _ptask_new_task : Ptask :=
  { id := 0, wcet := 0, period := 0, deadline := 0, priority := 0, dmiss := 0
    at_ := { tv_sec := 0, tv_nsec := 0 }, dl := { tv_sec := 0, tv_nsec := 0 }
    _state := .PS_FREE }

/-- The static globals of `src/api/ptask.c` that the registry functions
mutate. -/
structure PtaskGlobals where
  _used_ids : List Bool
  _ntasks : Int
  _last_task_id : Int
  _scheduler : Int
  deriving DecidableEq, Repr

/-- The globals at program start: `_used_ids` zeroed, `_ntasks = 0`,
`_last_task_id = -1`, `_scheduler = SCHED_OTHER`. -/
def initPtaskGlobals : PtaskGlobals :=
  { _used_ids := List.replicate PTASK_MAX false
    _ntasks := 0
    _last_task_id := -1
    _scheduler := SCHED_OTHER }

/-- Embedding of `_ptask_isvalid_id`. -/
def _ptask_isvalid_id (g : PtaskGlobals) (p : Ptask) : Bool :=
  decide (0 ≤ p.id) && decide (p.id < (PTASK_MAX : Int)) &&
    g._used_ids.getD p.id.toNat false

/-- Embedding of `_ptask_canallocate`. -/
def _ptask_canallocate (g : PtaskGlobals) : Bool :=
  decide (g._ntasks < (PTASK_MAX : Int))

/-- The do-while loop of `_ptask_new_id`:
`do { _last_task_id = (_last_task_id+1) % PTASK_MAX; } while
(_used_ids[_last_task_id]);`, as a fuel-bounded search.  C `%` truncates
toward zero, hence `Int.tmod` (the cursor stays in `[-1, 50)`, where the two
conventions agree).  With fuel `50` the walk visits each of the 50 ids once;
`none` corresponds to the C loop never terminating, which cannot happen while
some id is free. -/
def _ptask_find_free_id (used : List Bool) : Nat → Int → Option Int
  | 0, _ => none
  | fuel + 1, last =>
      let last' := (last + 1).tmod 50
      if used.getD last'.toNat false then _ptask_find_free_id used fuel last'
      else some last'

/-- Embedding of `_ptask_new_id`: returns the allocated id (`-1` on failure)
and the updated globals. -/
def _ptask_new_id (g : PtaskGlobals) : Int × PtaskGlobals :=
  if ¬ _ptask_canallocate g then (-1, g)
  else
    match _ptask_find_free_id g._used_ids 50 g._last_task_id with
    | none => (-1, g)
    | some i =>
        (i, { g with _last_task_id := i
                     _ntasks := g._ntasks + 1
                     _used_ids := g._used_ids.set i.toNat true })

/-- Embedding of `_ptask_free_id`. -/
def _ptask_free_id (g : PtaskGlobals) (p : Ptask) : PtaskGlobals :=
  if _ptask_isvalid_id g p then
    { g with _ntasks := g._ntasks - 1
             _used_ids := g._used_ids.set p.id.toNat false }
  else g

/-- Embedding of `_ptask_check_state`. -/
def _ptask_check_state (p : Ptask) (s : PtaskState) : Bool :=
  p._state = s

/-- Embedding of `_ptask_isnew`. -/
def _ptask_isnew (g : PtaskGlobals) (p : Ptask) : Bool :=
  _ptask_isvalid_id g p && _ptask_check_state p .PS_NEW

/-- Embedding of `_ptask_isjoinable`. -/
def _ptask_isjoinable (g : PtaskGlobals) (p : Ptask) : Bool :=
  _ptask_isvalid_id g p && _ptask_check_state p .PS_JOINABLE

/-- Embedding of `_ptask_iserror`. -/
def _ptask_iserror (g : PtaskGlobals) (p : Ptask) : Bool :=
  _ptask_isvalid_id g p && _ptask_check_state p .PS_ERROR

/-- Embedding of `_ptask_attr_init`.  The results of the four external
`pthread_attr_*` calls are summarized by `attrErr` (their combined error
code, `0` when they all succeed); the priority/policy validation at the top
is the C code verbatim. -/
def _ptask_attr_init (g : PtaskGlobals) (p : Ptask) (attrErr : Int) : Int :=
  if g._scheduler ≠ SCHED_OTHER ∧ p.priority = 0 then EINVAL
  else if g._scheduler = SCHED_OTHER ∧ p.priority ≠ 0 then EINVAL
  else attrErr

/-- Embedding of `ptask_set_scheduler`. -/
def ptask_set_scheduler (g : PtaskGlobals) (scheduler : Int) :
    Int × PtaskGlobals :=
  if scheduler = SCHED_OTHER ∨ scheduler = SCHED_RR ∨ scheduler = SCHED_FIFO
  then (0, { g with _scheduler := scheduler })
  else (EINVAL, g)

/-- Embedding of `ptask_init`: returns the error code, the updated globals and
the overwritten descriptor. -/
def ptask_init (g : PtaskGlobals) (p : Ptask) : Int × PtaskGlobals × Ptask :=
  if ¬ _ptask_canallocate g then (EAGAIN, g, p)
  else
    let r := _ptask_new_id g
    (0, r.2, { _ptask_new_task with id := r.1, _state := .PS_NEW })

/-- Embedding of `ptask_set_params`. -/
def ptask_set_params (g : PtaskGlobals) (p : Ptask)
    (wcet period deadline priority : Int) : Int × Ptask :=
  if ¬ _ptask_isnew g p then (EINVAL, p)
  else
    (0, { p with wcet := wcet, period := period,
                 deadline := deadline, priority := priority })

/-- Embedding of `ptask_create`.  `attrErr` summarizes the external
`pthread_attr_*` results inside `_ptask_attr_init` and `createErr` is the
result of the external `pthread_create` call. -/
def ptask_create (g : PtaskGlobals) (p : Ptask) (attrErr createErr : Int) :
    Int × Ptask :=
  if ¬ _ptask_isnew g p then (EINVAL, p)
  else
    let err := _ptask_attr_init g p attrErr
    if err ≠ 0 then (err, { p with _state := .PS_ERROR })
    else
      (createErr,
       { p with _state := if createErr ≠ 0 then .PS_ERROR else .PS_JOINABLE })

/-- Embedding of `ptask_destroy`. -/
def ptask_destroy (g : PtaskGlobals) (p : Ptask) : Int × PtaskGlobals × Ptask :=
  if ¬ _ptask_iserror g p then (EINVAL, g, p)
  else (0, _ptask_free_id g p, _ptask_new_task)

/-- Embedding of `ptask_join`.  `joinErr` is the result of the external
`pthread_join` call; the C function frees the id and resets the state
unconditionally after the join and then returns `joinErr` to the caller. -/
def ptask_join (g : PtaskGlobals) (p : Ptask) (joinErr : Int) :
    Int × PtaskGlobals × Ptask :=
  if ¬ _ptask_isjoinable g p then (EINVAL, g, p)
  else (joinErr, _ptask_free_id g p, { p with _state := .PS_FREE })

/-- Embedding of `ptask_start_period`.  `now` is the value read from
`clock_gettime(CLOCK_MONOTONIC)`. -/
def ptask_start_period (p : Ptask) (now : Timespec) : Ptask :=
  { p with at_ := time_add_ms now p.period
           dl := time_add_ms now p.deadline }

/-- Embedding of `ptask_wait_for_period`.  `wake` is the instant at which
`clock_nanosleep` finally returns `0`; the C code discards it — the update
reads only the stored `at` and `dl` fields, which is what makes the period
computation drift-free. -/
def ptask_wait_for_period (p : Ptask) (wake : Timespec) : Ptask :=
  let _ := wake
  { p with at_ := time_add_ms p.at_ p.period
           dl := time_add_ms p.dl p.period }

/-- Embedding of `ptask_deadline_miss`. -/
def ptask_deadline_miss (p : Ptask) (now : Timespec) : Int × Ptask :=
  if time_cmp now p.dl > 0 then (1, { p with dmiss := p.dmiss + 1 })
  else (0, p)

--------------------------------------------------------------------------
-- Whole-registry transition system for sequences of lifecycle operations
--------------------------------------------------------------------------

/-- A registry configuration: the globals of `ptask.c` together with the
caller-owned descriptor slots the operations act on. -/
structure PtaskSys where
  g : PtaskGlobals
  descs : List Ptask
  deriving DecidableEq, Repr

/-- One lifecycle operation on descriptor number `d`.  The `Int` parameters
carry the results of the corresponding external pthread calls. -/
inductive RegOp where
  | opInit (d : Nat)
  | opCreate (d : Nat) (attrErr createErr : Int)
  | opJoin (d : Nat) (joinErr : Int)
  | opDestroy (d : Nat)
  deriving DecidableEq, Repr

/-- Apply one lifecycle operation; an out-of-range descriptor number is a
no-op (in C it would be a call through an invalid pointer). -/
def runOp (s : PtaskSys) (op : RegOp) : PtaskSys :=
  match op with
  | .opInit d =>
      if h : d < s.descs.length then
        let r := ptask_init s.g (s.descs.get ⟨d, h⟩)
        { g := r.2.1, descs := s.descs.set d r.2.2 }
      else s
  | .opCreate d attrErr createErr =>
      if h : d < s.descs.length then
        let r := ptask_create s.g (s.descs.get ⟨d, h⟩) attrErr createErr
        { s with descs := s.descs.set d r.2 }
      else s
  | .opJoin d joinErr =>
      if h : d < s.descs.length then
        let r := ptask_join s.g (s.descs.get ⟨d, h⟩) joinErr
        { g := r.2.1, descs := s.descs.set d r.2.2 }
      else s
  | .opDestroy d =>
      if h : d < s.descs.length then
        let r := ptask_destroy s.g (s.descs.get ⟨d, h⟩)
        { g := r.2.1, descs := s.descs.set d r.2.2 }
      else s

/-- Run a sequence of lifecycle operations. -/
def runOps (s : PtaskSys) (ops : List RegOp) : PtaskSys :=
  ops.foldl runOp s

/-- The system at program start: fresh globals and `k` caller descriptors,
all zero-initialized (state `PS_FREE`). -/
def initPtaskSys (k : Nat) : PtaskSys :=
  { g := initPtaskGlobals, descs := List.replicate k _ptask_new_task }

/-- A descriptor is live while it holds a registry slot: any state other than
`PS_FREE`. -/
def descLive (p : Ptask) : Bool :=
  p._state ≠ .PS_FREE

/-- Number of simultaneously-live descriptors. -/
def liveCount (s : PtaskSys) : Nat :=
  s.descs.countP descLive

/-- Number of ids currently marked used in the registry bitmap. -/
def countUsed (used : List Bool) : Nat :=
  used.countP (fun b => b)

/-- Whether an operation frees a registry slot when applied to `s`: a `join`
of a joinable descriptor or a `destroy` of an errored one. -/
def freesSlot (s : PtaskSys) (op : RegOp) : Bool :=
  match op with
  | .opJoin d _ =>
      if h : d < s.descs.length then _ptask_isjoinable s.g (s.descs.get ⟨d, h⟩)
      else false
  | .opDestroy d =>
      if h : d < s.descs.length then _ptask_iserror s.g (s.descs.get ⟨d, h⟩)
      else false
  | _ => false

/-- Spec-side description of the id allocator, written from the claim's own
words: the first unused id strictly after `last` in cyclic order modulo 50
(the candidates `last+1, last+2, ..., last+50`, each reduced mod 50, tested
in order).  Used only to be compared with the `_ptask_new_id` embedding. -/
def cyclicFirstFree (used : List Bool) (last : Int) : Option Int :=
  ((List.range 50).map (fun k : Nat => (last + (k : Int) + 1).tmod 50)).find?
    (fun i => ! used.getD i.toNat false)

--------------------------------------------------------------------------
-- Concrete states used by counterexamples and witnesses
--------------------------------------------------------------------------

/-- The cab state after a successful reserve, discarding the returned buffer
reference and token; only used to build concrete protocol traces. -/
def cabStateAfterReserve (cab : PtaskCab) : PtaskCab :=
  match ptask_cab_reserve cab with
  | some r => r.1
  | none => cab

/-- The cab produced by `ptask_cab_init 1 3 4 [10, 20, 30]`: a three-buffer
cab (buffer references `10`, `20`, `30`). -/
def c1s0 : PtaskCab :=
  { id := 1, num_buffers := 3, size_buffers := 4
    buffers := [10, 20, 30] ++ List.replicate 29 0
    busy := List.replicate 32 0
    last_index := -1
    timestamp := { tv_sec := 0, tv_nsec := 0 } }

/-- Trace: the writer reserves buffer 0. -/
def c1s1 : PtaskCab := cabStateAfterReserve c1s0
/-- Trace: the writer commits buffer 0. -/
def c1s2 : PtaskCab := (ptask_cab_putmes c1s1 0 { tv_sec := 0, tv_nsec := 100 }).2
/-- Trace: reader A fetches (and keeps holding) buffer 0. -/
def c1s3 : PtaskCab := (ptask_cab_getmes c1s2).2.1
/-- Trace: the writer reserves buffer 1. -/
def c1s4 : PtaskCab := cabStateAfterReserve c1s3
/-- Trace: the writer commits buffer 1. -/
def c1s5 : PtaskCab := (ptask_cab_putmes c1s4 1 { tv_sec := 0, tv_nsec := 200 }).2
/-- Trace: reader B fetches (and keeps holding) buffer 1. -/
def c1s6 : PtaskCab := (ptask_cab_getmes c1s5).2.1
/-- Trace: the writer reserves buffer 2. -/
def c1s7 : PtaskCab := cabStateAfterReserve c1s6
/-- Trace: the writer commits buffer 2.  Now `busy = [1, 1, 0, ...]` and
`last_index = 2`: exactly `n - 1 = 2` buffers are held by readers, yet no
index of `[0, 3)` is both free and different from `last_index`. -/
def c1s8 : PtaskCab := (ptask_cab_putmes c1s7 2 { tv_sec := 0, tv_nsec := 300 }).2

/-- A cab with one buffer held by a reader, used as witness input. -/
def cabW : PtaskCab := c1s3

/-- The globals after one `ptask_init` at program start: id 0 allocated. -/
def c8g : PtaskGlobals :=
  { _used_ids := (List.replicate 50 false).set 0 true
    _ntasks := 1
    _last_task_id := 0
    _scheduler := SCHED_OTHER }

/-- The descriptor produced by that first `ptask_init`. -/
def c8p : Ptask := { _ptask_new_task with id := 0, _state := .PS_NEW }

/-- The same descriptor with a nonzero priority stored via
`ptask_set_params`. -/
def c8p1 : Ptask := { c8p with priority := 1 }

/-- The descriptor in the joinable state, as left by a successful
`ptask_create` on `c8p`. -/
def c9p : Ptask := { c8p with _state := .PS_JOINABLE }

/-- Globals with ids 0 and 1 allocated and the cursor on id 1, after which
id 0 has been released: the next allocation must pick id 2, not the freed
id 0. -/
def c10g : PtaskGlobals :=
  { _used_ids := (List.replicate 50 false).set 1 true
    _ntasks := 1
    _last_task_id := 1
    _scheduler := SCHED_OTHER }

/-- Fifty `ptask_init` calls on fifty distinct descriptor slots. -/
def ops50 : List RegOp := (List.range 50).map RegOp.opInit

--------------------------------------------------------------------------
-- Registry invariant
--------------------------------------------------------------------------

/-- Invariant of the registry transition system: the bitmap has its declared
length, `_ntasks` counts the used ids, the cursor stays in `[-1, 50)`, every
live descriptor holds a valid (marked-used) id, no two live descriptors
share an id, and there are at least as many used ids as live descriptors. -/
structure SysInv (s : PtaskSys) : Prop where
  ulen : s.g._used_ids.length = PTASK_MAX
  hcount : s.g._ntasks = (countUsed s.g._used_ids : Int)
  hlast₁ : -1 ≤ s.g._last_task_id
  hlast₂ : s.g._last_task_id < 50
  hvalid : ∀ (i : Nat) (hi : i < s.descs.length),
    descLive (s.descs.get ⟨i, hi⟩) →
    _ptask_isvalid_id s.g (s.descs.get ⟨i, hi⟩) = true
  hdist : ∀ (i j : Nat) (hi : i < s.descs.length) (hj : j < s.descs.length),
    i ≠ j → descLive (s.descs.get ⟨i, hi⟩) → descLive (s.descs.get ⟨j, hj⟩) →
    (s.descs.get ⟨i, hi⟩).id ≠ (s.descs.get ⟨j, hj⟩).id
  hlive : liveCount s ≤ countUsed s.g._used_ids

--------------------------------------------------------------------------
-- Generic list helpers
--------------------------------------------------------------------------

theorem list_set_get_self {α : Type} (l : List α) (i : Nat) (h : i < l.length) :
    l.set i (l.get ⟨i, h⟩) = l := by
  induction l generalizing i with
  | nil => rfl
  | cons a l ih =>
      cases i with
      | zero => rfl
      | succ n => simp only [List.set, List.get, List.cons.injEq, true_and]
                  exact ih n (by simpa using h)

theorem getD_set_other {α : Type} (l : List α) (d : α) (i j : Nat) (v : α)
    (hne : j ≠ i) : (l.set i v).getD j d = l.getD j d := by
  by_cases hj : j < l.length
  · rw [List.getD_eq_getElem l d hj,
      List.getD_eq_getElem (l.set i v) d (by simpa using hj)]
    exact List.getElem_set_ne (fun h => hne h.symm) _
  · rw [List.getD_eq_default l d (by omega),
      List.getD_eq_default (l.set i v) d (by simpa using (by omega : l.length ≤ j))]

theorem getD_set_self {α : Type} (l : List α) (d : α) (i : Nat) (v : α)
    (hi : i < l.length) : (l.set i v).getD i d = v := by
  rw [List.getD_eq_getElem (l.set i v) d (by simpa using hi)]
  exact List.getElem_set_self _

theorem lt_length_of_getD_ne {α : Type} (l : List α) (d : α) (j : Nat)
    (h : l.getD j d ≠ d) : j < l.length := by
  by_contra hc
  exact h (List.getD_eq_default l d (by omega))

--------------------------------------------------------------------------
-- Timespec arithmetic
--------------------------------------------------------------------------

theorem timespecNs_time_add_ms (t : Timespec) (ms : Int) :
    timespecNs (time_add_ms t ms) = timespecNs t + ms * 1000000 := by
  have h := Int.tdiv_add_tmod ms 1000
  simp only [time_add_ms, timespecNs]
  split <;> ring_nf <;> linarith [h]

theorem time_cmp_self (t : Timespec) : time_cmp t t = 0 := by
  simp [time_cmp]

theorem wait_foldl_ns (wakes : List Timespec) (q : Ptask) :
    (wakes.foldl ptask_wait_for_period q).period = q.period ∧
    timespecNs ((wakes.foldl ptask_wait_for_period q).at_) =
      timespecNs q.at_ + (wakes.length : Int) * q.period * 1000000 ∧
    timespecNs ((wakes.foldl ptask_wait_for_period q).dl) =
      timespecNs q.dl + (wakes.length : Int) * q.period * 1000000 := by
  induction wakes generalizing q with
  | nil => simp
  | cons w ws ih =>
      simp only [List.foldl_cons, List.length_cons]
      obtain ⟨hper, hat, hdl⟩ := ih (ptask_wait_for_period q w)
      have hq : (ptask_wait_for_period q w).period = q.period := rfl
      refine ⟨by rw [hper, hq], ?_, ?_⟩
      · rw [hat, hq]
        have : timespecNs (ptask_wait_for_period q w).at_ =
            timespecNs q.at_ + q.period * 1000000 :=
          timespecNs_time_add_ms q.at_ q.period
        rw [this]; push_cast; ring
      · rw [hdl, hq]
        have : timespecNs (ptask_wait_for_period q w).dl =
            timespecNs q.dl + q.period * 1000000 :=
          timespecNs_time_add_ms q.dl q.period
        rw [this]; push_cast; ring

/-- C7: after `ptask_start_period` at time `t`, a row of `N` calls to
`ptask_wait_for_period` (with arbitrary wake-up instants, i.e. arbitrary
scheduling jitter) advances `at` and `dl` by exactly `N × period`
milliseconds relative to the values stored by `ptask_start_period`, because
each call adds the period to the previously stored values, never to the wake
time. -/
theorem ptask_periods_drift_free (p : Ptask) (t : Timespec)
    (wakes : List Timespec) :
    (ptask_start_period p t).at_ = time_add_ms t p.period ∧
    (ptask_start_period p t).dl = time_add_ms t p.deadline ∧
    timespecNs ((wakes.foldl ptask_wait_for_period
        (ptask_start_period p t)).at_) =
      timespecNs (ptask_start_period p t).at_ +
        (wakes.length : Int) * p.period * 1000000 ∧
    timespecNs ((wakes.foldl ptask_wait_for_period
        (ptask_start_period p t)).dl) =
      timespecNs (ptask_start_period p t).dl +
        (wakes.length : Int) * p.period * 1000000 := by
  obtain ⟨hper, hat, hdl⟩ := wait_foldl_ns wakes (ptask_start_period p t)
  have hsp : (ptask_start_period p t).period = p.period := rfl
  rw [hsp] at hat hdl
  exact ⟨rfl, rfl, hat, hdl⟩

/-- C2: `ptask_cab_putmes` succeeds exactly when `busy[b_id] == 1` and
`b_id ≠ last_index`; on success it clears `busy[b_id]`, publishes `b_id` as
`last_index` and stamps the timestamp with the commit time; otherwise it
returns `EINVAL` and leaves the cab untouched. -/
theorem ptask_cab_putmes_correct (cab : PtaskCab) (b_id : Nat) (now : Timespec) :
    ((ptask_cab_putmes cab b_id now).1 = 0 ↔
      (cab.busy.getD b_id 0 = 1 ∧ cab.last_index ≠ (b_id : Int))) ∧
    ((ptask_cab_putmes cab b_id now).1 ≠ 0 →
      (ptask_cab_putmes cab b_id now).1 = EINVAL ∧
      (ptask_cab_putmes cab b_id now).2 = cab) ∧
    ((ptask_cab_putmes cab b_id now).1 = 0 →
      (ptask_cab_putmes cab b_id now).2 =
        { cab with busy := cab.busy.set b_id 0
                   last_index := (b_id : Int)
                   timestamp := now }) := by
  unfold ptask_cab_putmes
  split
  · next h =>
      refine ⟨?_, fun _ => ⟨rfl, rfl⟩, fun h0 => absurd h0 (by norm_num [EINVAL])⟩
      simp only [EINVAL]
      constructor
      · intro h0; exact absurd h0 (by norm_num)
      · rintro ⟨h1, h2⟩
        rcases h with h | h
        · exact absurd h1 h
        · exact absurd h h2
  · next h =>
      push_neg at h
      exact ⟨⟨fun _ => ⟨h.1, h.2⟩, fun _ => rfl⟩,
        fun hne => absurd rfl hne, fun _ => rfl⟩

/-- Witness for C2 at a concrete input: committing the freshly reserved
buffer 0 of `c1s1` succeeds, clears its busy flag, publishes index 0 and
stamps the commit time; committing it twice fails with `EINVAL`. -/
theorem ptask_cab_putmes_correct_witness :
    (ptask_cab_putmes c1s1 0 { tv_sec := 0, tv_nsec := 100 }).1 = 0 ∧
    (ptask_cab_putmes c1s1 0 { tv_sec := 0, tv_nsec := 100 }).2 =
      { c1s1 with busy := c1s1.busy.set 0 0, last_index := ((0 : Nat) : Int),
                  timestamp := { tv_sec := 0, tv_nsec := 100 } } := by
  have h := ptask_cab_putmes_correct c1s1 0 { tv_sec := 0, tv_nsec := 100 }
  have h0 : (ptask_cab_putmes c1s1 0 { tv_sec := 0, tv_nsec := 100 }).1 = 0 :=
    h.1.mpr (by decide)
  exact ⟨h0, h.2.2 h0⟩

/-- C4: `ptask_cab_getmes` returns `EAGAIN` exactly when `last_index` is the
none marker (negative); otherwise it returns token `last_index`, increments
that buffer's busy count and hands back the buffer reference together with
the stored commit timestamp. -/
theorem ptask_cab_getmes_correct (cab : PtaskCab) :
    ((ptask_cab_getmes cab).1 = EAGAIN ↔ cab.last_index < 0) ∧
    (cab.last_index < 0 → ptask_cab_getmes cab = (EAGAIN, cab, none)) ∧
    (¬ cab.last_index < 0 →
      ptask_cab_getmes cab =
        (0,
         { cab with
            busy := cab.busy.set cab.last_index.toNat
              (cab.busy.getD cab.last_index.toNat 0 + 1) },
         some (cab.last_index.toNat, cab.buffers.getD cab.last_index.toNat 0,
               cab.timestamp))) := by
  unfold ptask_cab_getmes
  split
  · next h => exact ⟨⟨fun _ => h, fun _ => rfl⟩, fun _ => rfl, fun hc => absurd h hc⟩
  · next h =>
      refine ⟨⟨fun he => absurd he (by norm_num [EAGAIN]), fun hc => absurd hc h⟩,
        fun hc => absurd hc h, fun _ => rfl⟩

/-- Witness for C4 at concrete inputs: on `c1s2` (buffer 0 just committed)
the fetch succeeds with token 0, buffer reference 10 and the stored commit
timestamp; on the freshly initialized `c1s0` it returns `EAGAIN`. -/
theorem ptask_cab_getmes_correct_witness :
    ptask_cab_getmes c1s2 =
      (0,
       { c1s2 with
          busy := c1s2.busy.set c1s2.last_index.toNat
            (c1s2.busy.getD c1s2.last_index.toNat 0 + 1) },
       some (c1s2.last_index.toNat, c1s2.buffers.getD c1s2.last_index.toNat 0,
             c1s2.timestamp)) ∧
    ptask_cab_getmes c1s0 = (EAGAIN, c1s0, none) := by
  exact ⟨(ptask_cab_getmes_correct c1s2).2.2 (by decide),
    (ptask_cab_getmes_correct c1s0).2.1 (by decide)⟩

/-- C5: `ptask_cab_reset` only replaces `last_index` with the none marker:
busy counts, buffer references and every other field are untouched, a fetch
right after the reset reports `EAGAIN` with no state change, and a buffer
still held by a reader can still be released normally. -/
theorem ptask_cab_reset_frame (cab : PtaskCab) :
    (ptask_cab_reset cab = (0, { cab with last_index := -1 }) ∧
     (ptask_cab_reset cab).2.busy = cab.busy ∧
     (ptask_cab_reset cab).2.buffers = cab.buffers ∧
     (ptask_cab_reset cab).2.id = cab.id ∧
     (ptask_cab_reset cab).2.num_buffers = cab.num_buffers ∧
     (ptask_cab_reset cab).2.size_buffers = cab.size_buffers ∧
     (ptask_cab_reset cab).2.timestamp = cab.timestamp ∧
     ptask_cab_getmes (ptask_cab_reset cab).2 =
       (EAGAIN, (ptask_cab_reset cab).2, none)) ∧
    (∀ b_id : Nat, 1 ≤ cab.busy.getD b_id 0 →
      (ptask_cab_unget (ptask_cab_reset cab).2 b_id).1 = 0 ∧
      (ptask_cab_unget (ptask_cab_reset cab).2 b_id).2.busy =
        cab.busy.set b_id (cab.busy.getD b_id 0 - 1)) := by
  refine ⟨⟨rfl, rfl, rfl, rfl, rfl, rfl, rfl, rfl⟩, ?_⟩
  intro b_id hb
  unfold ptask_cab_unget ptask_cab_reset
  simp only
  split
  · next h => omega
  · exact ⟨rfl, rfl⟩

/-- Witness for C5: on `c1s3` (buffer 0 published and held by a reader) the
reader can still release buffer 0 after a reset. -/
theorem ptask_cab_reset_frame_witness :
    (ptask_cab_unget (ptask_cab_reset c1s3).2 0).1 = 0 ∧
    (ptask_cab_unget (ptask_cab_reset c1s3).2 0).2.busy =
      c1s3.busy.set 0 (c1s3.busy.getD 0 0 - 1) :=
  (ptask_cab_reset_frame c1s3).2 0 (by decide)

/-- C9: on a joinable descriptor, `ptask_join` hands the caller the raw
`pthread_join` result but frees the task id and marks the descriptor
`PS_FREE` unconditionally, even when that result is an error. -/
theorem ptask_join_always_frees (g : PtaskGlobals) (p : Ptask) (joinErr : Int)
    (hj : _ptask_isjoinable g p = true) :
    ptask_join g p joinErr =
      (joinErr, _ptask_free_id g p, { p with _state := .PS_FREE }) ∧
    (_ptask_free_id g p)._used_ids.getD p.id.toNat false = false ∧
    (_ptask_free_id g p)._ntasks = g._ntasks - 1 ∧
    (ptask_join g p joinErr).2.2._state = .PS_FREE := by
  have hvalid : _ptask_isvalid_id g p = true := by
    have h' := hj
    unfold _ptask_isjoinable at h'
    exact ((Bool.and_eq_true _ _).mp h').1
  have hused : g._used_ids.getD p.id.toNat false = true := by
    unfold _ptask_isvalid_id at hvalid
    simpa using ((Bool.and_eq_true _ _).mp hvalid).2
  have hlt : p.id.toNat < g._used_ids.length :=
    lt_length_of_getD_ne g._used_ids false p.id.toNat (by rw [hused]; simp)
  have hfree : _ptask_free_id g p =
      { g with _ntasks := g._ntasks - 1
               _used_ids := g._used_ids.set p.id.toNat false } := by
    unfold _ptask_free_id
    rw [hvalid]
    rfl
  have hjoin : ptask_join g p joinErr =
      (joinErr, _ptask_free_id g p, { p with _state := .PS_FREE }) := by
    unfold ptask_join
    rw [hj]
    rfl
  refine ⟨hjoin, ?_, by rw [hfree], by rw [hjoin]⟩
  rw [hfree]
  exact getD_set_self _ _ _ _ hlt

/-- Witness for C9: joining `c9p` while `pthread_join` reports error code 3
still frees id 0 and leaves the descriptor `PS_FREE`; the error is passed
through. -/
theorem ptask_join_always_frees_witness :
    ptask_join c8g c9p 3 =
      (3, _ptask_free_id c8g c9p, { c9p with _state := .PS_FREE }) ∧
    (_ptask_free_id c8g c9p)._used_ids.getD c9p.id.toNat false = false ∧
    (_ptask_free_id c8g c9p)._ntasks = c8g._ntasks - 1 ∧
    (ptask_join c8g c9p 3).2.2._state = .PS_FREE :=
  ptask_join_always_frees c8g c9p 3 (by decide)

theorem _cab_scan_some (busy : List Int) (last : Int) :
    ∀ (fuel start j : Nat), _cab_scan busy last fuel start = some j →
      start ≤ j ∧ j < busy.length ∧ busy.getD j 0 = 0 ∧ (j : Int) ≠ last ∧
      (∀ m, start ≤ m → m < j → busy.getD m 0 ≠ 0 ∨ (m : Int) = last) := by
  intro fuel
  induction fuel with
  | zero => intro start j h; simp [_cab_scan] at h
  | succ n ih =>
      intro start j h
      unfold _cab_scan at h
      split at h
      · next h1 =>
          split at h
          · next hbad =>
              obtain ⟨ha, hb, hc, hd, he⟩ := ih (start + 1) j h
              refine ⟨by omega, hb, hc, hd, ?_⟩
              intro m hm1 hm2
              rcases Nat.eq_or_lt_of_le hm1 with heq | hlt
              · subst heq
                rw [List.getD_eq_getElem busy 0 h1]
                simpa [List.get_eq_getElem] using hbad
              · exact he m hlt hm2
          · next hgood =>
              have hj : start = j := Option.some.inj h
              subst hj
              push_neg at hgood
              refine ⟨le_refl _, h1, ?_, hgood.2, fun m hm1 hm2 => by omega⟩
              rw [List.getD_eq_getElem busy 0 h1]
              simpa [List.get_eq_getElem] using hgood.1
      · exact absurd h (by simp)

theorem _cab_scan_finds (busy : List Int) (last : Int) (i : Nat)
    (hi : i < busy.length) (h0 : busy.getD i 0 = 0) (hl : (i : Int) ≠ last) :
    ∀ (fuel start : Nat), start ≤ i → busy.length - start ≤ fuel →
      ∃ j, _cab_scan busy last fuel start = some j ∧ j ≤ i := by
  intro fuel
  induction fuel with
  | zero => intro start hs hf; omega
  | succ n ih =>
      intro start hs hf
      have h1 : start < busy.length := by omega
      unfold _cab_scan
      rw [dif_pos h1]
      by_cases hbad : busy.get ⟨start, h1⟩ ≠ 0 ∨ (start : Int) = last
      · rw [if_pos hbad]
        have hne : start ≠ i := by
          intro he
          rcases hbad with hb | hb
          · refine hb ?_
            rw [List.get_eq_getElem, ← List.getD_eq_getElem busy 0 h1]
            rw [he]
            exact h0
          · exact hl (by rw [← he]; exact hb)
        obtain ⟨j, hj1, hj2⟩ := ih (start + 1) (by omega) (by omega)
        exact ⟨j, hj1, hj2⟩
      · rw [if_neg hbad]
        exact ⟨start, rfl, hs⟩

theorem cab_good_index_exists (cab : PtaskCab) (hwf : CabWF cab)
    (hn : 2 ≤ cab.num_buffers)
    (hcnt : cabBusyCount cab ≤ cab.num_buffers - 2) :
    ∃ i, i < cab.num_buffers ∧ cab.busy.getD i 0 = 0 ∧
      (i : Int) ≠ cab.last_index := by
  obtain ⟨hblen, _, hnle, _, hnonneg⟩ := hwf
  -- among the first num_buffers indices, "not free" coincides with "busy > 0"
  have hcong : (List.range cab.num_buffers).countP
        (fun i => decide ¬ (cab.busy.getD i 0 = 0)) = cabBusyCount cab := by
    unfold cabBusyCount
    refine List.countP_congr ?_
    intro i hmem
    have hilt : i < cab.num_buffers := List.mem_range.mp hmem
    have hil : i < cab.busy.length := by omega
    have hpos : 0 ≤ cab.busy.getD i 0 := by
      rw [List.getD_eq_getElem cab.busy 0 hil]
      exact hnonneg _ (List.getElem_mem hil)
    constructor
    · intro hne
      simp only [decide_eq_true_eq] at hne ⊢
      omega
    · intro hgt
      simp only [decide_eq_true_eq] at hgt ⊢
      omega
  have hsplit := List.length_eq_countP_add_countP
    (fun i => decide (cab.busy.getD i 0 = 0)) (List.range cab.num_buffers)
  rw [List.length_range] at hsplit
  simp only [decide_eq_true_eq] at hsplit
  have hfree2 : 2 ≤ (List.range cab.num_buffers).countP
      (fun i => decide (cab.busy.getD i 0 = 0)) := by
    have : (List.range cab.num_buffers).countP
        (fun i => decide ¬ (cab.busy.getD i 0 = 0)) ≤ cab.num_buffers - 2 := by
      rw [hcong]; exact hcnt
    omega
  rw [List.countP_eq_length_filter] at hfree2
  have hnodup : ((List.range cab.num_buffers).filter
      (fun i => decide (cab.busy.getD i 0 = 0))).Nodup :=
    (List.nodup_range cab.num_buffers).filter _
  match hF : (List.range cab.num_buffers).filter
      (fun i => decide (cab.busy.getD i 0 = 0)) with
  | [] => rw [hF] at hfree2; simp at hfree2
  | [a] => rw [hF] at hfree2; simp at hfree2
  | a :: b :: rest =>
      rw [hF] at hnodup
      have hab : a ≠ b := by
        have := List.nodup_cons.mp hnodup
        exact fun he => this.1 (he ▸ List.mem_cons_self b rest)
      have hamem : a ∈ (List.range cab.num_buffers).filter
          (fun i => decide (cab.busy.getD i 0 = 0)) := by
        rw [hF]; exact List.mem_cons_self _ _
      have hbmem : b ∈ (List.range cab.num_buffers).filter
          (fun i => decide (cab.busy.getD i 0 = 0)) := by
        rw [hF]; exact List.mem_cons_of_mem _ (List.mem_cons_self _ _)
      obtain ⟨ha1, ha2⟩ := List.mem_filter.mp hamem
      obtain ⟨hb1, hb2⟩ := List.mem_filter.mp hbmem
      by_cases hal : (a : Int) = cab.last_index
      · refine ⟨b, List.mem_range.mp hb1, by simpa using hb2, ?_⟩
        intro hbl
        exact hab (by exact_mod_cast hal.trans hbl.symm)
      · exact ⟨a, List.mem_range.mp ha1, by simpa using ha2, hal⟩

/-- C1 (amended): on a well-formed cab with `n ≥ 2` buffers of which at most
`n − 2` are held by readers, `ptask_cab_reserve` succeeds: its scan stays in
`[0, n)`, it picks the first index that is free and different from
`last_index`, raises that buffer's busy count from 0 to 1 and returns the
buffer's reference with the index as token. -/
theorem ptask_cab_reserve_succeeds (cab : PtaskCab) (hwf : CabWF cab)
    (hn : 2 ≤ cab.num_buffers)
    (hcnt : cabBusyCount cab ≤ cab.num_buffers - 2) :
    ∃ i, ptask_cab_reserve cab =
        some ({ cab with busy := cab.busy.set i 1 }, cab.buffers.getD i 0, i) ∧
      i < cab.num_buffers ∧ cab.busy.getD i 0 = 0 ∧
      (i : Int) ≠ cab.last_index ∧
      (∀ m, m < i → cab.busy.getD m 0 ≠ 0 ∨ (m : Int) = cab.last_index) := by
  obtain ⟨i0, hi0n, hi0f, hi0l⟩ := cab_good_index_exists cab hwf hn hcnt
  have hblen : cab.busy.length = PTASK_CAB_MAX_SIZE := hwf.1
  have hi0len : i0 < cab.busy.length := by
    have := hwf.2.2.1
    omega
  obtain ⟨j, hj, hji⟩ := _cab_scan_finds cab.busy cab.last_index i0 hi0len hi0f
    hi0l cab.busy.length 0 (Nat.zero_le _) (by omega)
  obtain ⟨-, hjlen, hjf, hjl, hjmin⟩ :=
    _cab_scan_some cab.busy cab.last_index cab.busy.length 0 j hj
  refine ⟨j, ?_, by omega, hjf, hjl, fun m hm => hjmin m (Nat.zero_le _) hm⟩
  unfold ptask_cab_reserve
  rw [hj]
  show some ({ cab with busy := cab.busy.set j (cab.busy.getD j 0 + 1) },
      cab.buffers.getD j 0, j) = _
  rw [hjf]
  norm_num

/-- Witness for C1 (amended) at the concrete state `cabW = c1s3` (three
buffers, buffer 0 published and held by one reader, `1 ≤ 3 − 2`): the writer
gets buffer index 1. -/
theorem ptask_cab_reserve_succeeds_witness :
    CabWF cabW ∧ 2 ≤ cabW.num_buffers ∧
    cabBusyCount cabW ≤ cabW.num_buffers - 2 ∧
    ∃ i, ptask_cab_reserve cabW =
        some ({ cabW with busy := cabW.busy.set i 1 },
              cabW.buffers.getD i 0, i) ∧
      i < cabW.num_buffers ∧ cabW.busy.getD i 0 = 0 ∧
      (i : Int) ≠ cabW.last_index ∧
      (∀ m, m < i → cabW.busy.getD m 0 ≠ 0 ∨ (m : Int) = cabW.last_index) :=
  ⟨by decide, by decide, by decide,
   ptask_cab_reserve_succeeds cabW (by decide) (by decide) (by decide)⟩

/-- C1 counterexample: the claim's precondition — at most `n − 1` buffers
held by readers — is not enough.  Starting from `ptask_cab_init` and using
only legal reserve/commit/fetch steps, the three-buffer cab reaches `c1s8`
(`busy = [1, 1, 0, ...]`, `last_index = 2`) where exactly `n − 1 = 2`
buffers are held by readers; there `ptask_cab_reserve` walks past every
valid index and hands out index 3 with the null buffer reference `0`,
violating both "its linear scan stays within indices [0, n)" and the claim
that it returns one of the cab's buffers. -/
theorem c1_counterexample :
    (ptask_cab_init 1 3 4 [10, 20, 30]).1 = 0 ∧
    (ptask_cab_init 1 3 4 [10, 20, 30]).2 = some c1s0 ∧
    ptask_cab_reserve c1s0 = some (c1s1, 10, 0) ∧
    (ptask_cab_putmes c1s1 0 { tv_sec := 0, tv_nsec := 100 }).1 = 0 ∧
    (ptask_cab_getmes c1s2).1 = 0 ∧
    ptask_cab_reserve c1s3 = some (c1s4, 20, 1) ∧
    (ptask_cab_putmes c1s4 1 { tv_sec := 0, tv_nsec := 200 }).1 = 0 ∧
    (ptask_cab_getmes c1s5).1 = 0 ∧
    ptask_cab_reserve c1s6 = some (c1s7, 30, 2) ∧
    (ptask_cab_putmes c1s7 2 { tv_sec := 0, tv_nsec := 300 }).1 = 0 ∧
    c1s8.num_buffers = 3 ∧
    CabWF c1s8 ∧
    cabBusyCount c1s8 = c1s8.num_buffers - 1 ∧
    ptask_cab_reserve c1s8 =
      some ({ c1s8 with busy := c1s8.busy.set 3 1 }, 0, 3) ∧
    (∀ r ∈ ptask_cab_reserve c1s8, ¬ r.2.2 < c1s8.num_buffers) := by
  decide

/-- C3: round-trip.  If `ptask_cab_reserve` returns buffer `buf` with token
`t` on a well-formed cab, the caller stores `pattern` through the returned
reference (slot `t`) and commits at time `now`, then the commit succeeds and
a `ptask_cab_getmes` with no other commit or reset in between returns the
very same buffer slot `t` holding `pattern`, stamped with the commit time
`now` (so its timestamp compares `≥` the commit instant). -/
theorem cab_roundtrip (cab cab' : PtaskCab) (buf pattern : Int) (t : Nat)
    (now : Timespec) (hwf : CabWF cab)
    (hres : ptask_cab_reserve cab = some (cab', buf, t)) :
    (ptask_cab_putmes { cab' with buffers := cab'.buffers.set t pattern }
        t now).1 = 0 ∧
    (ptask_cab_getmes (ptask_cab_putmes
        { cab' with buffers := cab'.buffers.set t pattern } t now).2).1 = 0 ∧
    (ptask_cab_getmes (ptask_cab_putmes
        { cab' with buffers := cab'.buffers.set t pattern } t now).2).2.2 =
      some (t, pattern, now) ∧
    time_cmp now now = 0 := by
  unfold ptask_cab_reserve at hres
  cases hscan : _cab_scan cab.busy cab.last_index cab.busy.length 0 with
  | none => rw [hscan] at hres; exact absurd hres (by simp)
  | some i =>
      rw [hscan] at hres
      simp only [Option.some.injEq, Prod.mk.injEq] at hres
      obtain ⟨hcab', hbuf, ht⟩ := hres
      subst hcab'
      subst ht
      obtain ⟨-, hilen, hif, hil, -⟩ :=
        _cab_scan_some cab.busy cab.last_index cab.busy.length 0 i hscan
      have hflen : i < cab.buffers.length := by
        have h1 := hwf.1
        have h2 := hwf.2.1
        omega
      -- the state after the caller wrote `pattern` through the reference
      have hbusy1 :
          ({ { cab with busy := cab.busy.set i (cab.busy.getD i 0 + 1) } with
             buffers := ({ cab with
               busy := cab.busy.set i (cab.busy.getD i 0 + 1) }).buffers.set
                 i pattern } : PtaskCab).busy.getD i 0 = 1 := by
        show (cab.busy.set i (cab.busy.getD i 0 + 1)).getD i 0 = 1
        rw [getD_set_self cab.busy 0 i (cab.busy.getD i 0 + 1) hilen, hif]
        norm_num
      have hput : ptask_cab_putmes
          { { cab with busy := cab.busy.set i (cab.busy.getD i 0 + 1) } with
            buffers := ({ cab with
              busy := cab.busy.set i (cab.busy.getD i 0 + 1) }).buffers.set
                i pattern } i now =
          (0, { cab with busy := (cab.busy.set i (cab.busy.getD i 0 + 1)).set i 0
                         buffers := cab.buffers.set i pattern
                         last_index := (i : Int)
                         timestamp := now }) := by
        unfold ptask_cab_putmes
        rw [if_neg]
        push_neg
        exact ⟨hbusy1, fun h => hil h.symm⟩
      rw [hput]
      have hnotneg : ¬ ((i : Int) < 0) := by
        simp
      have hgetD : (cab.buffers.set i pattern).getD ((i : Int)).toNat 0 =
          pattern := by
        rw [Int.toNat_natCast]
        exact getD_set_self cab.buffers 0 i pattern hflen
      refine ⟨rfl, ?_, ?_, time_cmp_self now⟩
      · unfold ptask_cab_getmes
        rw [if_neg hnotneg]
      · unfold ptask_cab_getmes
        rw [if_neg hnotneg]
        simp only
        rw [hgetD, Int.toNat_natCast]

/-- Witness for C3: on the fresh three-buffer cab `c1s0`, reserving yields
buffer 10 with token 0; writing pattern 42 into slot 0 and committing at
time 1s makes the next fetch return slot 0 holding 42 stamped 1s. -/
theorem cab_roundtrip_witness :
    (ptask_cab_putmes { c1s1 with buffers := c1s1.buffers.set 0 42 }
        0 { tv_sec := 1, tv_nsec := 0 }).1 = 0 ∧
    (ptask_cab_getmes (ptask_cab_putmes
        { c1s1 with buffers := c1s1.buffers.set 0 42 }
        0 { tv_sec := 1, tv_nsec := 0 }).2).1 = 0 ∧
    (ptask_cab_getmes (ptask_cab_putmes
        { c1s1 with buffers := c1s1.buffers.set 0 42 }
        0 { tv_sec := 1, tv_nsec := 0 }).2).2.2 =
      some (0, 42, { tv_sec := 1, tv_nsec := 0 }) ∧
    time_cmp { tv_sec := 1, tv_nsec := 0 } { tv_sec := 1, tv_nsec := 0 } = 0 :=
  cab_roundtrip c1s0 c1s1 10 42 0 { tv_sec := 1, tv_nsec := 0 }
    (by decide) (by decide)

/-- C8 counterexample: `ptask_set_params` performs no priority validation at
all.  On the reachable state after one `ptask_init` (scheduler is the
time-shared `SCHED_OTHER`), storing the nonzero priority 1 succeeds with 0
instead of failing with `EINVAL` as the claim requires. -/
theorem c8_counterexample :
    ptask_init initPtaskGlobals _ptask_new_task = (0, c8g, c8p) ∧
    c8g._scheduler = SCHED_OTHER ∧
    _ptask_isnew c8g c8p = true ∧
    (ptask_set_params c8g c8p 0 10 10 1).1 = 0 ∧
    (ptask_set_params c8g c8p 0 10 10 1).1 ≠ EINVAL ∧
    (ptask_set_params c8g c8p 0 10 10 1).2.priority = 1 := by
  decide

/-- C8 (amended): `ptask_set_params` accepts any priority for a descriptor in
state `PS_NEW`; the priority/policy validation the claim describes is
performed later, by `ptask_create` through `_ptask_attr_init`, which rejects
with `EINVAL` exactly when the stored priority is nonzero under the
time-shared policy or zero under a real-time policy (given that the external
pthread attribute and creation calls themselves succeed). -/
theorem ptask_priority_validated_in_create (g : PtaskGlobals) (p : Ptask)
    (createErr : Int) (hnew : _ptask_isnew g p = true) (hc : createErr = 0) :
    (∀ w per dl pr, (ptask_set_params g p w per dl pr).1 = 0 ∧
        (ptask_set_params g p w per dl pr).2.priority = pr) ∧
    ((_ptask_attr_init g p 0 = 0) ↔ (p.priority = 0 ↔ g._scheduler = SCHED_OTHER)) ∧
    (¬ (p.priority = 0 ↔ g._scheduler = SCHED_OTHER) →
       ptask_create g p 0 createErr = (EINVAL, { p with _state := .PS_ERROR })) ∧
    ((p.priority = 0 ↔ g._scheduler = SCHED_OTHER) →
       ptask_create g p 0 createErr = (0, { p with _state := .PS_JOINABLE })) := by
  have hattr : ∀ (e : Int),
      _ptask_attr_init g p e = if (p.priority = 0 ↔ g._scheduler = SCHED_OTHER)
        then e else EINVAL := by
    intro e
    unfold _ptask_attr_init
    by_cases h1 : g._scheduler = SCHED_OTHER <;>
      by_cases h2 : p.priority = 0 <;>
      simp [h1, h2]
  refine ⟨?_, ?_, ?_, ?_⟩
  · intro w per dl pr
    unfold ptask_set_params
    rw [hnew]
    exact ⟨rfl, rfl⟩
  · rw [hattr 0]
    split
    · next h => simp [h]
    · next h => simp [h, EINVAL]
  · intro hbad
    have h1 : _ptask_attr_init g p 0 = EINVAL := by rw [hattr 0, if_neg hbad]
    unfold ptask_create
    rw [if_neg (by simp [hnew])]
    simp [h1, EINVAL]
  · intro hok
    have h1 : _ptask_attr_init g p 0 = 0 := by rw [hattr 0, if_pos hok]
    unfold ptask_create
    subst hc
    rw [if_neg (by simp [hnew])]
    simp [h1]

/-- Witness for C8 (amended): with the time-shared policy active and stored
priority 1 (state `c8p1`), `ptask_create` fails with `EINVAL` and marks the
descriptor `PS_ERROR`; with priority 0 (state `c8p`) it succeeds. -/
theorem ptask_priority_validated_in_create_witness :
    ptask_create c8g c8p1 0 0 = (EINVAL, { c8p1 with _state := .PS_ERROR }) ∧
    ptask_create c8g c8p 0 0 = (0, { c8p with _state := .PS_JOINABLE }) :=
  ⟨(ptask_priority_validated_in_create c8g c8p1 0 (by decide) rfl).2.2.1
      (by decide),
   (ptask_priority_validated_in_create c8g c8p 0 (by decide) rfl).2.2.2
      (by decide)⟩

theorem _ptask_find_free_id_eq (used : List Bool) :
    ∀ (fuel : Nat) (last : Int), -1 ≤ last →
      _ptask_find_free_id used fuel last =
        ((List.range fuel).map
          (fun k : Nat => (last + (k : Int) + 1).tmod 50)).find?
          (fun i => ! used.getD i.toNat false) := by
  intro fuel
  induction fuel with
  | zero => intro last hlast; simp [_ptask_find_free_id]
  | succ n ih =>
      intro last hlast
      rw [List.range_succ_eq_map, List.map_cons, List.map_map]
      have hz : last + ((0 : Nat) : Int) + 1 = last + 1 := by push_cast; ring
      have hlast' : -1 ≤ (last + 1).tmod 50 := by
        have h0 : (0 : Int) ≤ (last + 1).tmod 50 := Int.tmod_nonneg 50 (by omega)
        omega
      unfold _ptask_find_free_id
      simp only
      by_cases hused : used.getD ((last + 1).tmod 50).toNat false
      · rw [if_pos hused]
        rw [List.find?_cons_of_neg]
        · rw [ih ((last + 1).tmod 50) hlast']
          refine congrArg _ (List.map_congr_left ?_)
          intro k hk
          show ((last + 1).tmod 50 + (k : Int) + 1).tmod 50 =
            (last + ((k + 1 : Nat) : Int) + 1).tmod 50
          have h1 : (last + 1).tmod 50 = (last + 1) % 50 :=
            Int.tmod_eq_emod (by omega) (by norm_num)
          have h2 : (0 : Int) ≤ (last + 1) % 50 := Int.emod_nonneg _ (by norm_num)
          have h3 : ((last + 1).tmod 50 + (k : Int) + 1).tmod 50 =
              ((last + 1) % 50 + (k : Int) + 1) % 50 := by
            rw [h1]
            exact Int.tmod_eq_emod (by omega) (by norm_num)
          have h4 : (last + ((k + 1 : Nat) : Int) + 1).tmod 50 =
              (last + ((k + 1 : Nat) : Int) + 1) % 50 := by
            refine Int.tmod_eq_emod ?_ (by norm_num)
            push_cast
            omega
          rw [h3, h4]
          push_cast
          omega
        · show ¬ (! used.getD ((last + ((0 : Nat) : Int) + 1).tmod 50).toNat false) = true
          rw [hz, hused]
          simp
      · rw [if_neg hused]
        rw [List.find?_cons_of_pos]
        · rw [hz]
        · show (! used.getD ((last + ((0 : Nat) : Int) + 1).tmod 50).toNat false) = true
          rw [hz]
          exact (Bool.not_eq_true' _).mpr (Bool.eq_false_iff.mpr hused)

/-- C10: task id allocation is cyclic first-fit.  A successful `ptask_init`
returns the first unused id strictly after the previous cursor position
`_last_task_id` in cyclic order modulo 50 (the spec-side `cyclicFirstFree`),
moves the cursor onto the assigned id, and the cursor is never moved by a
release (`_ptask_free_id`, used by both `ptask_join` and `ptask_destroy`),
so a freed id is not reassigned before the cursor wraps past every other
free id. -/
theorem ptask_init_cyclic_first_fit (g : PtaskGlobals) (p : Ptask)
    (hlast : -1 ≤ g._last_task_id) (hcan : _ptask_canallocate g = true) :
    (ptask_init g p).1 = 0 ∧
    (ptask_init g p).2.2.id =
      (cyclicFirstFree g._used_ids g._last_task_id).getD (-1) ∧
    (∀ i, cyclicFirstFree g._used_ids g._last_task_id = some i →
      (ptask_init g p).2.1._last_task_id = i) ∧
    (∀ q, (_ptask_free_id g q)._last_task_id = g._last_task_id) := by
  have hfind : _ptask_find_free_id g._used_ids 50 g._last_task_id =
      cyclicFirstFree g._used_ids g._last_task_id := by
    rw [_ptask_find_free_id_eq g._used_ids 50 g._last_task_id hlast]
    rfl
  have hfreeid : ∀ q, (_ptask_free_id g q)._last_task_id = g._last_task_id := by
    intro q
    unfold _ptask_free_id
    split <;> rfl
  unfold ptask_init _ptask_new_id
  rw [if_neg (by simp [hcan]), if_neg (by simp [hcan]), hfind]
  cases hc : cyclicFirstFree g._used_ids g._last_task_id with
  | none => exact ⟨rfl, rfl, fun i hi => Option.noConfusion hi, hfreeid⟩
  | some i =>
      refine ⟨rfl, rfl, fun i' hi' => ?_, hfreeid⟩
      have h := Option.some.inj hi'
      subst h
      rfl

/-- Witness for C10: in `c10g` the cursor sits on id 1 while id 0 (freed
earlier) and ids 2..49 are unused; the next `ptask_init` assigns id 2 — the
first free id strictly after the cursor — not the freed id 0. -/
theorem ptask_init_cyclic_first_fit_witness :
    (ptask_init c10g _ptask_new_task).1 = 0 ∧
    (ptask_init c10g _ptask_new_task).2.2.id =
      (cyclicFirstFree c10g._used_ids c10g._last_task_id).getD (-1) ∧
    cyclicFirstFree c10g._used_ids c10g._last_task_id = some 2 ∧
    (ptask_init c10g _ptask_new_task).2.2.id = 2 := by
  obtain ⟨h1, h2, h3, h4⟩ :=
    ptask_init_cyclic_first_fit c10g _ptask_new_task (by decide) (by decide)
  refine ⟨h1, h2, by decide, ?_⟩
  rw [h2]
  decide

--------------------------------------------------------------------------
-- Registry lemmas
--------------------------------------------------------------------------

theorem countUsed_le_length (u : List Bool) : countUsed u ≤ u.length :=
  List.countP_le_length _

theorem countUsed_set_true (u : List Bool) (i : Nat) (hi : i < u.length)
    (hfalse : u.getD i false = false) :
    countUsed (u.set i true) = countUsed u + 1 := by
  unfold countUsed
  rw [List.countP_set _ u i true hi]
  rw [List.getD_eq_getElem u false hi] at hfalse
  simp [hfalse]

theorem countUsed_set_false (u : List Bool) (i : Nat) (hi : i < u.length)
    (htrue : u.getD i false = true) :
    countUsed (u.set i false) = countUsed u - 1 ∧ 1 ≤ countUsed u := by
  unfold countUsed
  rw [List.countP_set _ u i false hi]
  rw [List.getD_eq_getElem u false hi] at htrue
  constructor
  · simp [htrue]
  · have : 0 < u.countP (fun b => b) :=
      List.countP_pos.mpr ⟨u[i], List.getElem_mem hi, htrue⟩
    omega

theorem cyclicFirstFree_succeeds (used : List Bool) (last : Int)
    (hlen : used.length = 50) (hlast : -1 ≤ last)
    (hfree : countUsed used < 50) :
    ∃ i : Int, cyclicFirstFree used last = some i ∧ 0 ≤ i ∧ i < 50 ∧
      used.getD i.toNat false = false := by
  have hex : ∃ j, j < used.length ∧ used.getD j false = false := by
    by_contra hc
    push_neg at hc
    have hall : countUsed used = used.length := by
      unfold countUsed
      rw [List.countP_eq_length]
      intro b hb
      obtain ⟨j, hj, hjb⟩ := List.mem_iff_getElem.mp hb
      have := hc j hj
      rw [List.getD_eq_getElem used false hj] at this
      rw [← hjb]
      exact Bool.eq_true_of_ne_false this
    omega
  obtain ⟨j, hjlen, hjf⟩ := hex
  have hj50 : j < 50 := by omega
  set kInt : Int := ((j : Int) - last - 1) % 50 with hkdef
  have hk0 : 0 ≤ kInt := Int.emod_nonneg _ (by norm_num)
  have hk50 : kInt < 50 := Int.emod_lt_of_pos _ (by norm_num)
  have hkmem : kInt.toNat ∈ List.range 50 :=
    List.mem_range.mpr (by omega)
  have hargpos : 0 ≤ last + (kInt.toNat : Int) + 1 := by
    have : (kInt.toNat : Int) = kInt := Int.toNat_of_nonneg hk0
    omega
  have hfk : (last + (kInt.toNat : Int) + 1).tmod 50 = (j : Int) := by
    rw [Int.tmod_eq_emod hargpos (by norm_num)]
    have hcast : (kInt.toNat : Int) = kInt := Int.toNat_of_nonneg hk0
    rw [hcast, hkdef]
    omega
  have hmem : (j : Int) ∈ (List.range 50).map
      (fun k : Nat => (last + (k : Int) + 1).tmod 50) :=
    List.mem_map.mpr ⟨kInt.toNat, hkmem, hfk⟩
  have hpred : (fun i : Int => ! used.getD i.toNat false) (j : Int) = true := by
    show (! used.getD ((j : Int)).toNat false) = true
    rw [Int.toNat_natCast, hjf]
    rfl
  have hsome : (((List.range 50).map
      (fun k : Nat => (last + (k : Int) + 1).tmod 50)).find?
      (fun i : Int => ! used.getD i.toNat false)).isSome :=
    List.find?_isSome.mpr ⟨(j : Int), hmem, hpred⟩
  obtain ⟨i, hi⟩ := Option.isSome_iff_exists.mp hsome
  have hifree : used.getD i.toNat false = false := by
    have := List.find?_some hi
    simpa using this
  have hibound : 0 ≤ i ∧ i < 50 := by
    have hmem' := List.mem_of_find?_eq_some hi
    obtain ⟨k, -, hk⟩ := List.mem_map.mp hmem'
    have hpos : 0 ≤ last + (k : Int) + 1 := by
      have : (0 : Int) ≤ (k : Int) := Int.natCast_nonneg k
      omega
    rw [← hk, Int.tmod_eq_emod hpos (by norm_num)]
    constructor
    · exact Int.emod_nonneg _ (by norm_num)
    · exact Int.emod_lt_of_pos _ (by norm_num)
  exact ⟨i, hi, hibound.1, hibound.2, hifree⟩

theorem _ptask_find_free_id_50 (used : List Bool) (last : Int)
    (hlast : -1 ≤ last) :
    _ptask_find_free_id used 50 last = cyclicFirstFree used last := by
  rw [_ptask_find_free_id_eq used 50 last hlast]
  rfl

theorem _ptask_canallocate_iff (g : PtaskGlobals) :
    _ptask_canallocate g = true ↔ g._ntasks < 50 := by
  simp [_ptask_canallocate, PTASK_MAX]

theorem _ptask_isvalid_id_iff (g : PtaskGlobals) (p : Ptask) :
    _ptask_isvalid_id g p = true ↔
      0 ≤ p.id ∧ p.id < 50 ∧ g._used_ids.getD p.id.toNat false = true := by
  simp [_ptask_isvalid_id, PTASK_MAX, Bool.and_eq_true, decide_eq_true_eq,
    and_assoc]

theorem _ptask_isnew_iff (g : PtaskGlobals) (p : Ptask) :
    _ptask_isnew g p = true ↔
      _ptask_isvalid_id g p = true ∧ p._state = .PS_NEW := by
  simp [_ptask_isnew, _ptask_check_state, Bool.and_eq_true]

theorem _ptask_isjoinable_iff (g : PtaskGlobals) (p : Ptask) :
    _ptask_isjoinable g p = true ↔
      _ptask_isvalid_id g p = true ∧ p._state = .PS_JOINABLE := by
  simp [_ptask_isjoinable, _ptask_check_state, Bool.and_eq_true]

theorem _ptask_iserror_iff (g : PtaskGlobals) (p : Ptask) :
    _ptask_iserror g p = true ↔
      _ptask_isvalid_id g p = true ∧ p._state = .PS_ERROR := by
  simp [_ptask_iserror, _ptask_check_state, Bool.and_eq_true]

theorem descLive_iff (p : Ptask) : descLive p = true ↔ p._state ≠ .PS_FREE := by
  simp [descLive]

theorem _ptask_new_id_success (g : PtaskGlobals)
    (hlen : g._used_ids.length = PTASK_MAX) (hlast : -1 ≤ g._last_task_id)
    (hcnt : g._ntasks = (countUsed g._used_ids : Int))
    (hcan : g._ntasks < 50) :
    ∃ i : Int, 0 ≤ i ∧ i < 50 ∧ g._used_ids.getD i.toNat false = false ∧
      _ptask_new_id g =
        (i, { g with _last_task_id := i
                     _ntasks := g._ntasks + 1
                     _used_ids := g._used_ids.set i.toNat true }) := by
  have hlen50 : g._used_ids.length = 50 := hlen
  have hfree : countUsed g._used_ids < 50 := by omega
  obtain ⟨i, hsome, h0, h50, hifree⟩ :=
    cyclicFirstFree_succeeds g._used_ids g._last_task_id hlen50 hlast hfree
  refine ⟨i, h0, h50, hifree, ?_⟩
  have hcanb : _ptask_canallocate g = true := (_ptask_canallocate_iff g).mpr hcan
  unfold _ptask_new_id
  rw [if_neg (not_not_intro hcanb),
    _ptask_find_free_id_50 g._used_ids g._last_task_id hlast, hsome]

theorem ptask_init_success (g : PtaskGlobals) (p : Ptask)
    (hlen : g._used_ids.length = PTASK_MAX) (hlast : -1 ≤ g._last_task_id)
    (hcnt : g._ntasks = (countUsed g._used_ids : Int))
    (hcan : g._ntasks < 50) :
    ∃ i : Int, 0 ≤ i ∧ i < 50 ∧ g._used_ids.getD i.toNat false = false ∧
      ptask_init g p =
        (0,
         { g with _last_task_id := i
                  _ntasks := g._ntasks + 1
                  _used_ids := g._used_ids.set i.toNat true },
         { _ptask_new_task with id := i, _state := .PS_NEW }) := by
  obtain ⟨i, h0, h50, hifree, hnewid⟩ := _ptask_new_id_success g hlen hlast hcnt hcan
  refine ⟨i, h0, h50, hifree, ?_⟩
  have hcanb : _ptask_canallocate g = true := (_ptask_canallocate_iff g).mpr hcan
  unfold ptask_init
  rw [if_neg (not_not_intro hcanb)]
  simp only [hnewid]

theorem ptask_init_fail (g : PtaskGlobals) (p : Ptask)
    (hcan : ¬ g._ntasks < 50) :
    ptask_init g p = (EAGAIN, g, p) := by
  unfold ptask_init
  rw [if_pos]
  intro hb
  exact hcan ((_ptask_canallocate_iff g).mp hb)

theorem sys_mk_set_self (s : PtaskSys) (d : Nat) (h : d < s.descs.length) :
    (PtaskSys.mk s.g (s.descs.set d (s.descs.get ⟨d, h⟩))) = s := by
  cases s with
  | mk g descs =>
      simp only [PtaskSys.mk.injEq, true_and]
      exact list_set_get_self descs d h

theorem countP_set_same_live (l : List Ptask) (d : Nat) (hd : d < l.length)
    (v : Ptask) (hold : descLive l[d] = true) (hnew : descLive v = true) :
    List.countP descLive (l.set d v) = List.countP descLive l := by
  have hpos : 0 < List.countP descLive l :=
    List.countP_pos.mpr ⟨l[d], List.getElem_mem hd, hold⟩
  rw [List.countP_set descLive l d v hd, hold, hnew]
  norm_num
  omega

theorem countP_set_live_to_dead (l : List Ptask) (d : Nat) (hd : d < l.length)
    (v : Ptask) (hold : descLive l[d] = true) (hnew : descLive v = false) :
    List.countP descLive (l.set d v) = List.countP descLive l - 1 ∧
      0 < List.countP descLive l := by
  have hpos : 0 < List.countP descLive l :=
    List.countP_pos.mpr ⟨l[d], List.getElem_mem hd, hold⟩
  rw [List.countP_set descLive l d v hd, hold, hnew]
  refine ⟨?_, hpos⟩
  norm_num

theorem sysInv_opInit (s : PtaskSys) (hs : SysInv s) (d : Nat) :
    SysInv (runOp s (.opInit d)) := by
  obtain ⟨hulen, hcount, hl1, hl2, hvalid, hdist, hlive⟩ := hs
  simp only [runOp]
  split
  · next hd =>
      by_cases hcan : s.g._ntasks < 50
      · obtain ⟨i, h0, h50, hifree, hinit⟩ :=
          ptask_init_success s.g (s.descs.get ⟨d, hd⟩) hulen hl1 hcount hcan
        rw [hinit]
        have hlen50 : s.g._used_ids.length = 50 := hulen
        have hiNat : i.toNat < s.g._used_ids.length := by omega
        constructor
        · simpa using hulen
        · show s.g._ntasks + 1 = (countUsed (s.g._used_ids.set i.toNat true) : Int)
          rw [countUsed_set_true s.g._used_ids i.toNat hiNat hifree]
          push_cast
          omega
        · show -1 ≤ i
          omega
        · show i < 50
          omega
        · -- validity of every live descriptor in the new state
          intro e he hle
          have he' : e < s.descs.length := by simpa using he
          by_cases hed : e = d
          · subst hed
            rw [List.get_set_eq] at hle ⊢
            refine (_ptask_isvalid_id_iff _ _).mpr ⟨h0, h50, ?_⟩
            exact getD_set_self s.g._used_ids false i.toNat true hiNat
          · rw [List.get_set_ne (fun h => hed h.symm)] at hle ⊢
            have hold := (_ptask_isvalid_id_iff _ _).mp (hvalid e he' hle)
            refine (_ptask_isvalid_id_iff _ _).mpr ⟨hold.1, hold.2.1, ?_⟩
            show (s.g._used_ids.set i.toNat true).getD
              (s.descs.get ⟨e, he'⟩).id.toNat false = true
            by_cases hsame : (s.descs.get ⟨e, he'⟩).id.toNat = i.toNat
            · rw [hsame]
              exact getD_set_self s.g._used_ids false i.toNat true hiNat
            · rw [getD_set_other s.g._used_ids false i.toNat
                (s.descs.get ⟨e, he'⟩).id.toNat true hsame]
              exact hold.2.2
        · -- distinctness of ids
          intro e f he hf hef hle hlf
          have he' : e < s.descs.length := by simpa using he
          have hf' : f < s.descs.length := by simpa using hf
          by_cases hed : e = d
          · subst hed
            rw [List.get_set_eq] at hle ⊢
            rw [List.get_set_ne hef] at hlf ⊢
            have hold := (_ptask_isvalid_id_iff _ _).mp (hvalid f hf' hlf)
            show i ≠ (s.descs.get ⟨f, hf'⟩).id
            intro hcontra
            rw [← hcontra] at hold
            rw [hold.2.2] at hifree
            exact absurd hifree (by simp)
          · by_cases hfd : f = d
            · subst hfd
              rw [List.get_set_eq] at hlf ⊢
              rw [List.get_set_ne (fun h => hed h.symm)] at hle ⊢
              have hold := (_ptask_isvalid_id_iff _ _).mp (hvalid e he' hle)
              show (s.descs.get ⟨e, he'⟩).id ≠ i
              intro hcontra
              rw [hcontra] at hold
              rw [hold.2.2] at hifree
              exact absurd hifree (by simp)
            · rw [List.get_set_ne (fun h => hed h.symm)] at hle ⊢
              rw [List.get_set_ne (fun h => hfd h.symm)] at hlf ⊢
              exact hdist e f he' hf' hef hle hlf
        · -- live count
          show liveCount ⟨_, _⟩ ≤ countUsed (s.g._used_ids.set i.toNat true)
          unfold liveCount at *
          simp only at *
          have hset := List.countP_set descLive s.descs d
            ({ _ptask_new_task with id := i, _state := .PS_NEW }) hd
          rw [countUsed_set_true s.g._used_ids i.toNat hiNat hifree]
          have hnew : descLive { _ptask_new_task with id := i, _state := .PS_NEW }
              = true := rfl
          rw [hnew] at hset
          by_cases hX : descLive s.descs[d] = true <;> simp [hX] at hset <;> omega
      · rw [ptask_init_fail s.g (s.descs.get ⟨d, hd⟩) hcan]
        rw [sys_mk_set_self s d hd]
        exact ⟨hulen, hcount, hl1, hl2, hvalid, hdist, hlive⟩
  · exact ⟨hulen, hcount, hl1, hl2, hvalid, hdist, hlive⟩

theorem ptask_create_desc (g : PtaskGlobals) (p : Ptask) (a c : Int) :
    (ptask_create g p a c).2.id = p.id ∧
    (¬ _ptask_isnew g p = true → (ptask_create g p a c).2 = p) ∧
    (_ptask_isnew g p = true → descLive (ptask_create g p a c).2 = true) := by
  unfold ptask_create
  split
  · next h => exact ⟨rfl, fun _ => rfl, fun hn => absurd hn h⟩
  · next h =>
      simp only
      refine ⟨?_, fun hc => absurd (not_not.mp h) hc, fun _ => ?_⟩
      · split
        · rfl
        · rfl
      · split
        · rfl
        · by_cases hc0 : c ≠ 0
          · simp [descLive, hc0]
          · simp [descLive, hc0]

theorem sysInv_opCreate (s : PtaskSys) (hs : SysInv s) (d : Nat) (a c : Int) :
    SysInv (runOp s (.opCreate d a c)) := by
  obtain ⟨hulen, hcount, hl1, hl2, hvalid, hdist, hlive⟩ := hs
  simp only [runOp]
  split
  · next hd =>
      obtain ⟨hid, hnot, hlv⟩ := ptask_create_desc s.g (s.descs.get ⟨d, hd⟩) a c
      by_cases hnew : _ptask_isnew s.g (s.descs.get ⟨d, hd⟩) = true
      · have hpv := ((_ptask_isnew_iff _ _).mp hnew).1
        have hpst := ((_ptask_isnew_iff _ _).mp hnew).2
        have hpl : descLive (s.descs.get ⟨d, hd⟩) = true := by
          rw [descLive_iff, hpst]
          simp
        have hplive := hlv hnew
        constructor
        · exact hulen
        · exact hcount
        · exact hl1
        · exact hl2
        · intro e he hle
          have he' : e < s.descs.length := by simpa using he
          by_cases hed : e = d
          · subst hed
            rw [List.get_set_eq] at hle ⊢
            obtain ⟨a1, a2, a3⟩ := (_ptask_isvalid_id_iff _ _).mp (hvalid e he' hpl)
            exact (_ptask_isvalid_id_iff _ _).mpr
              ⟨by rw [hid]; exact a1, by rw [hid]; exact a2, by rw [hid]; exact a3⟩
          · rw [List.get_set_ne (fun h => hed h.symm)] at hle ⊢
            exact hvalid e he' hle
        · intro e f he hf hef hle hlf
          have he' : e < s.descs.length := by simpa using he
          have hf' : f < s.descs.length := by simpa using hf
          by_cases hed : e = d
          · subst hed
            rw [List.get_set_eq] at hle ⊢
            rw [List.get_set_ne hef] at hlf ⊢
            rw [hid]
            exact hdist e f he' hf' hef hpl hlf
          · by_cases hfd : f = d
            · subst hfd
              rw [List.get_set_eq] at hlf ⊢
              rw [List.get_set_ne (fun h => hed h.symm)] at hle ⊢
              rw [hid]
              exact hdist e f he' hf' hef hle hpl
            · rw [List.get_set_ne (fun h => hed h.symm)] at hle ⊢
              rw [List.get_set_ne (fun h => hfd h.symm)] at hlf ⊢
              exact hdist e f he' hf' hef hle hlf
        · show List.countP descLive
              (s.descs.set d (ptask_create s.g (s.descs.get ⟨d, hd⟩) a c).2) ≤
            countUsed s.g._used_ids
          rw [countP_set_same_live s.descs d hd _ hpl hplive]
          exact hlive
      · rw [hnot hnew, sys_mk_set_self s d hd]
        exact ⟨hulen, hcount, hl1, hl2, hvalid, hdist, hlive⟩
  · exact ⟨hulen, hcount, hl1, hl2, hvalid, hdist, hlive⟩

theorem sysInv_free_case (s : PtaskSys) (hs : SysInv s) (d : Nat)
    (hd : d < s.descs.length) (v : Ptask)
    (hpv : _ptask_isvalid_id s.g (s.descs.get ⟨d, hd⟩) = true)
    (hpl : descLive (s.descs.get ⟨d, hd⟩) = true)
    (hvdead : descLive v = false) :
    SysInv ⟨_ptask_free_id s.g (s.descs.get ⟨d, hd⟩), s.descs.set d v⟩ := by
  obtain ⟨hulen, hcount, hl1, hl2, hvalid, hdist, hlive⟩ := hs
  obtain ⟨b0, b50, btrue⟩ := (_ptask_isvalid_id_iff _ _).mp hpv
  have hlen50 : s.g._used_ids.length = 50 := hulen
  have hidlt : (s.descs.get ⟨d, hd⟩).id.toNat < s.g._used_ids.length := by omega
  have hfree : _ptask_free_id s.g (s.descs.get ⟨d, hd⟩) =
      { s.g with
        _ntasks := s.g._ntasks - 1
        _used_ids := s.g._used_ids.set (s.descs.get ⟨d, hd⟩).id.toNat false } := by
    unfold _ptask_free_id
    rw [if_pos hpv]
  obtain ⟨hcu, hcu1⟩ := countUsed_set_false s.g._used_ids
    (s.descs.get ⟨d, hd⟩).id.toNat hidlt btrue
  rw [hfree]
  constructor
  · simpa using hulen
  · show s.g._ntasks - 1 = (countUsed (s.g._used_ids.set
      (s.descs.get ⟨d, hd⟩).id.toNat false) : Int)
    rw [hcu]
    push_cast [hcu1]
    omega
  · exact hl1
  · exact hl2
  · intro e he hle
    have he' : e < s.descs.length := by simpa using he
    by_cases hed : e = d
    · subst hed
      rw [List.get_set_eq] at hle
      rw [hvdead] at hle
      exact absurd hle (by simp)
    · rw [List.get_set_ne (fun h => hed h.symm)] at hle ⊢
      obtain ⟨a1, a2, a3⟩ := (_ptask_isvalid_id_iff _ _).mp (hvalid e he' hle)
      refine (_ptask_isvalid_id_iff _ _).mpr ⟨a1, a2, ?_⟩
      have hne : (s.descs.get ⟨e, he'⟩).id ≠ (s.descs.get ⟨d, hd⟩).id :=
        hdist e d he' hd hed hle hpl
      have hnat : (s.descs.get ⟨e, he'⟩).id.toNat ≠
          (s.descs.get ⟨d, hd⟩).id.toNat := by omega
      rw [getD_set_other s.g._used_ids false
        (s.descs.get ⟨d, hd⟩).id.toNat (s.descs.get ⟨e, he'⟩).id.toNat false hnat]
      exact a3
  · intro e f he hf hef hle hlf
    have he' : e < s.descs.length := by simpa using he
    have hf' : f < s.descs.length := by simpa using hf
    by_cases hed : e = d
    · subst hed
      rw [List.get_set_eq, hvdead] at hle
      exact absurd hle (by simp)
    · by_cases hfd : f = d
      · subst hfd
        rw [List.get_set_eq, hvdead] at hlf
        exact absurd hlf (by simp)
      · rw [List.get_set_ne (fun h => hed h.symm)] at hle ⊢
        rw [List.get_set_ne (fun h => hfd h.symm)] at hlf ⊢
        exact hdist e f he' hf' hef hle hlf
  · show List.countP descLive (s.descs.set d v) ≤
      countUsed (s.g._used_ids.set (s.descs.get ⟨d, hd⟩).id.toNat false)
    obtain ⟨hc1, hc2⟩ := countP_set_live_to_dead s.descs d hd v hpl hvdead
    rw [hc1, hcu]
    have hlive' : List.countP descLive s.descs ≤ countUsed s.g._used_ids := hlive
    omega

theorem sysInv_opJoin (s : PtaskSys) (hs : SysInv s) (d : Nat) (jerr : Int) :
    SysInv (runOp s (.opJoin d jerr)) := by
  have hinv := hs
  obtain ⟨hulen, hcount, hl1, hl2, hvalid, hdist, hlive⟩ := hs
  simp only [runOp]
  split
  · next hd =>
      by_cases hj : _ptask_isjoinable s.g (s.descs.get ⟨d, hd⟩) = true
      · have hjoin : ptask_join s.g (s.descs.get ⟨d, hd⟩) jerr =
            (jerr, _ptask_free_id s.g (s.descs.get ⟨d, hd⟩),
             { s.descs.get ⟨d, hd⟩ with _state := .PS_FREE }) := by
          unfold ptask_join
          rw [if_neg (not_not_intro hj)]
        rw [hjoin]
        have hpv := ((_ptask_isjoinable_iff _ _).mp hj).1
        have hpst := ((_ptask_isjoinable_iff _ _).mp hj).2
        have hpl : descLive (s.descs.get ⟨d, hd⟩) = true := by
          rw [descLive_iff, hpst]
          simp
        exact sysInv_free_case s hinv d hd _ hpv hpl rfl
      · have hjoin : ptask_join s.g (s.descs.get ⟨d, hd⟩) jerr =
            (EINVAL, s.g, s.descs.get ⟨d, hd⟩) := by
          unfold ptask_join
          rw [if_pos hj]
        rw [hjoin, sys_mk_set_self s d hd]
        exact ⟨hulen, hcount, hl1, hl2, hvalid, hdist, hlive⟩
  · exact ⟨hulen, hcount, hl1, hl2, hvalid, hdist, hlive⟩

theorem sysInv_opDestroy (s : PtaskSys) (hs : SysInv s) (d : Nat) :
    SysInv (runOp s (.opDestroy d)) := by
  have hinv := hs
  obtain ⟨hulen, hcount, hl1, hl2, hvalid, hdist, hlive⟩ := hs
  simp only [runOp]
  split
  · next hd =>
      by_cases he : _ptask_iserror s.g (s.descs.get ⟨d, hd⟩) = true
      · have hdes : ptask_destroy s.g (s.descs.get ⟨d, hd⟩) =
            (0, _ptask_free_id s.g (s.descs.get ⟨d, hd⟩), _ptask_new_task) := by
          unfold ptask_destroy
          rw [if_neg (not_not_intro he)]
        rw [hdes]
        have hpv := ((_ptask_iserror_iff _ _).mp he).1
        have hpst := ((_ptask_iserror_iff _ _).mp he).2
        have hpl : descLive (s.descs.get ⟨d, hd⟩) = true := by
          rw [descLive_iff, hpst]
          simp
        exact sysInv_free_case s hinv d hd _ hpv hpl rfl
      · have hdes : ptask_destroy s.g (s.descs.get ⟨d, hd⟩) =
            (EINVAL, s.g, s.descs.get ⟨d, hd⟩) := by
          unfold ptask_destroy
          rw [if_pos he]
        rw [hdes, sys_mk_set_self s d hd]
        exact ⟨hulen, hcount, hl1, hl2, hvalid, hdist, hlive⟩
  · exact ⟨hulen, hcount, hl1, hl2, hvalid, hdist, hlive⟩

theorem sysInv_runOp (s : PtaskSys) (hs : SysInv s) (op : RegOp) :
    SysInv (runOp s op) := by
  cases op with
  | opInit d => exact sysInv_opInit s hs d
  | opCreate d a c => exact sysInv_opCreate s hs d a c
  | opJoin d jerr => exact sysInv_opJoin s hs d jerr
  | opDestroy d => exact sysInv_opDestroy s hs d

theorem sysInv_runOps (s : PtaskSys) (hs : SysInv s) (ops : List RegOp) :
    SysInv (runOps s ops) := by
  induction ops generalizing s with
  | nil => exact hs
  | cons op ops ih => exact ih (runOp s op) (sysInv_runOp s hs op)

theorem sysInv_initPtaskSys (k : Nat) : SysInv (initPtaskSys k) := by
  have hlc : liveCount (initPtaskSys k) = 0 := by
    unfold liveCount initPtaskSys
    simp only
    rw [List.countP_eq_zero]
    intro p hp
    rw [List.eq_of_mem_replicate hp]
    decide
  refine ⟨?_, ?_, ?_, ?_, ?_, ?_, ?_⟩
  · show (List.replicate PTASK_MAX false).length = PTASK_MAX
    decide
  · show (0 : Int) = (countUsed (List.replicate PTASK_MAX false) : Int)
    decide
  · show (-1 : Int) ≤ -1
    norm_num
  · show (-1 : Int) < 50
    norm_num
  · intro i hi hlive
    have hrep : (initPtaskSys k).descs.get ⟨i, hi⟩ = _ptask_new_task :=
      List.get_replicate _ _
    rw [hrep] at hlive
    exact absurd hlive (by decide)
  · intro i j hi hj hij hlivei hlivej
    have hrep : (initPtaskSys k).descs.get ⟨i, hi⟩ = _ptask_new_task :=
      List.get_replicate _ _
    rw [hrep] at hlivei
    exact absurd hlivei (by decide)
  · rw [hlc]
    omega

theorem ntasks_of_liveCount_full (s : PtaskSys) (hs : SysInv s)
    (hfull : liveCount s = PTASK_MAX) : s.g._ntasks = 50 := by
  have h1 := hs.hlive
  have h2 := countUsed_le_length s.g._used_ids
  have h3 := hs.ulen
  have h4 := hs.hcount
  have h5 : countUsed s.g._used_ids = 50 := by
    unfold PTASK_MAX at *
    omega
  rw [h4, h5]
  norm_num

theorem runOp_nonfree_frame (s : PtaskSys) (op : RegOp)
    (hfull : s.g._ntasks = 50) (hnf : freesSlot s op = false) :
    (runOp s op).g._ntasks = s.g._ntasks ∧
    liveCount (runOp s op) = liveCount s := by
  cases op with
  | opInit d =>
      simp only [runOp]
      split
      · next hd =>
          rw [ptask_init_fail s.g _ (by omega), sys_mk_set_self s d hd]
          exact ⟨rfl, rfl⟩
      · exact ⟨rfl, rfl⟩
  | opCreate d a c =>
      simp only [runOp]
      split
      · next hd =>
          refine ⟨rfl, ?_⟩
          obtain ⟨hid, hnot, hlv⟩ := ptask_create_desc s.g (s.descs.get ⟨d, hd⟩) a c
          by_cases hnew : _ptask_isnew s.g (s.descs.get ⟨d, hd⟩) = true
          · have hpst := ((_ptask_isnew_iff _ _).mp hnew).2
            have hpl : descLive (s.descs.get ⟨d, hd⟩) = true := by
              rw [descLive_iff, hpst]
              simp
            show List.countP descLive
              (s.descs.set d (ptask_create s.g (s.descs.get ⟨d, hd⟩) a c).2) =
              liveCount s
            rw [countP_set_same_live s.descs d hd _ hpl (hlv hnew)]
            rfl
          · rw [hnot hnew, sys_mk_set_self s d hd]
      · exact ⟨rfl, rfl⟩
  | opJoin d jerr =>
      simp only [runOp]
      split
      · next hd =>
          have hj : _ptask_isjoinable s.g (s.descs.get ⟨d, hd⟩) = false := by
            simp only [freesSlot] at hnf
            rw [dif_pos hd] at hnf
            exact hnf
          have hjoin : ptask_join s.g (s.descs.get ⟨d, hd⟩) jerr =
              (EINVAL, s.g, s.descs.get ⟨d, hd⟩) := by
            unfold ptask_join
            rw [if_pos (by simp only [Bool.not_eq_true]; exact hj)]
          rw [hjoin, sys_mk_set_self s d hd]
          exact ⟨rfl, rfl⟩
      · exact ⟨rfl, rfl⟩
  | opDestroy d =>
      simp only [runOp]
      split
      · next hd =>
          have he : _ptask_iserror s.g (s.descs.get ⟨d, hd⟩) = false := by
            simp only [freesSlot] at hnf
            rw [dif_pos hd] at hnf
            exact hnf
          have hdes : ptask_destroy s.g (s.descs.get ⟨d, hd⟩) =
              (EINVAL, s.g, s.descs.get ⟨d, hd⟩) := by
            unfold ptask_destroy
            rw [if_pos (by simp only [Bool.not_eq_true]; exact he)]
          rw [hdes, sys_mk_set_self s d hd]
          exact ⟨rfl, rfl⟩
      · exact ⟨rfl, rfl⟩

/-- C6: for every sequence of init/create/join/destroy operations starting
from a fresh registry, (a) no two simultaneously-live descriptors ever hold
the same id; and (b) whenever all `PTASK_MAX = 50` descriptor slots are
simultaneously live, `ptask_init` fails with `EAGAIN` (leaving the registry
untouched) and keeps failing after any further operation that is not a
slot-freeing join of a joinable descriptor or destroy of an errored one. -/
theorem ptask_registry_capacity_and_id_uniqueness (k : Nat) (ops : List RegOp) :
    (∀ (i j : Nat) (hi : i < (runOps (initPtaskSys k) ops).descs.length)
       (hj : j < (runOps (initPtaskSys k) ops).descs.length), i ≠ j →
       descLive ((runOps (initPtaskSys k) ops).descs.get ⟨i, hi⟩) = true →
       descLive ((runOps (initPtaskSys k) ops).descs.get ⟨j, hj⟩) = true →
       ((runOps (initPtaskSys k) ops).descs.get ⟨i, hi⟩).id ≠
         ((runOps (initPtaskSys k) ops).descs.get ⟨j, hj⟩).id) ∧
    (liveCount (runOps (initPtaskSys k) ops) = PTASK_MAX →
      (∀ p, ptask_init (runOps (initPtaskSys k) ops).g p =
         (EAGAIN, (runOps (initPtaskSys k) ops).g, p)) ∧
      (∀ op, freesSlot (runOps (initPtaskSys k) ops) op = false →
        liveCount (runOp (runOps (initPtaskSys k) ops) op) = PTASK_MAX ∧
        ∀ p, ptask_init (runOp (runOps (initPtaskSys k) ops) op).g p =
          (EAGAIN, (runOp (runOps (initPtaskSys k) ops) op).g, p))) := by
  have hinv := sysInv_runOps (initPtaskSys k) (sysInv_initPtaskSys k) ops
  refine ⟨hinv.hdist, ?_⟩
  intro hfull
  have hnt : (runOps (initPtaskSys k) ops).g._ntasks = 50 :=
    ntasks_of_liveCount_full _ hinv hfull
  refine ⟨fun p => ptask_init_fail _ p (by omega), ?_⟩
  intro op hnf
  obtain ⟨hnt', hlc'⟩ := runOp_nonfree_frame _ op hnt hnf
  refine ⟨by rw [hlc']; exact hfull, fun p => ptask_init_fail _ p ?_⟩
  rw [hnt', hnt]
  omega

set_option maxRecDepth 8000

/-- Witness for C6: after fifty `ptask_init` calls on fifty fresh slots, all
50 descriptors are live, so the next `ptask_init` fails with `EAGAIN` and
leaves the registry unchanged; after one more non-freeing operation (a
`ptask_create` on slot 0) it still fails. -/
theorem ptask_registry_capacity_witness :
    ptask_init (runOps (initPtaskSys 50) ops50).g _ptask_new_task =
      (EAGAIN, (runOps (initPtaskSys 50) ops50).g, _ptask_new_task) ∧
    ptask_init (runOp (runOps (initPtaskSys 50) ops50) (.opCreate 0 0 0)).g
        _ptask_new_task =
      (EAGAIN, (runOp (runOps (initPtaskSys 50) ops50) (.opCreate 0 0 0)).g,
       _ptask_new_task) := by
  have h := (ptask_registry_capacity_and_id_uniqueness 50 ops50).2 (by decide)
  exact ⟨h.1 _ptask_new_task,
    (h.2 (.opCreate 0 0 0) (by decide)).2 _ptask_new_task⟩
